import Mathlib

/-!
Verification development for the presidential-actions feed monitor.

The repository has two entry points: a continuous monitor (monitor.js) that
runs fetch → normalize → diff → persist cycles, and a one-shot fetcher
(index.js) that normalizes and overwrites unconditionally.  We embed the
normalization pipeline, the diff engine (findNewItems), the state-store load
(loadExistingData) and one orchestrated cycle (processRSS) as pure Lean
functions, modelling the filesystem as an explicit record of the three file
contents.  External collaborators (the HTTP client, the XML parser, the JS
Date builtin) are abstracted: the cycle takes the already-parsed raw item
list, and date parsing is a parameter of type String → Option String
standing for s ↦ new Date(s).toISOString(), with none meaning the
RangeError thrown on an invalid date.  Entity decoding (the html-entities
decode call) is modelled for the basic named entities that appear in the
properties under test; it decodes entities and, like the real library,
never strips markup tags.
-/

/-- The whitespace class used by the JS regexes \s and by String.prototype.trim,
restricted to the ASCII whitespace characters relevant here. -/
def isJsWs (c : Char) : Bool :=
  c = ' ' || c = '\t' || c = '\n' || c = '\r' || c = Char.ofNat 11 || c = Char.ofNat 12

/-- Model of String.prototype.trim on a character list: drop leading and
trailing whitespace. -/
def jsTrimChars (l : List Char) : List Char :=
  ((l.dropWhile isJsWs).reverse.dropWhile isJsWs).reverse

/-- String.prototype.trim. -/
def jsTrimStr (s : String) : String :=
  String.mk (jsTrimChars s.data)

/-- Model of .replace(/\s+/g, ' '): every maximal run of whitespace becomes a
single space.  A run contributes one space at its first character; the later
characters of the run see that the already-collapsed tail starts with the
space produced by the rest of the run and add nothing. -/
def collapseWsChars : List Char → List Char
  | [] => []
  | c :: cs =>
    let rest := collapseWsChars cs
    if isJsWs c then
      match rest with
      | ' ' :: _ => rest
      | _ => ' ' :: rest
    else
      c :: rest

/-- .replace(/\s+/g, ' ') on strings. -/
def collapseWsStr (s : String) : String :=
  String.mk (collapseWsChars s.data)

/-- Helper for the tag regex: after an opening < and one non-> character,
scan for the closing > and return the remainder after it. -/
def scanTagClose : List Char → Option (List Char)
  | [] => none
  | c :: cs => if c = '>' then some cs else scanTagClose cs

/-- Attempt to match the tail of /<[^>]+>/ right after a <: at least one
non-> character followed by >.  Returns the remainder after the match. -/
def matchTagEnd : List Char → Option (List Char)
  | [] => none
  | c :: cs => if c = '>' then none else scanTagClose cs

/-- Model of .replace(/<[^>]+>/g, ''): every leftmost match of an opening <,
one or more non-> characters and a closing > is removed; a < that starts no
match (end of input, or immediately followed by >) is kept.  The Nat
argument is a structural-recursion bound; every step consumes at least one
character, so a bound of the input length never runs out. -/
def stripTagsFuel : Nat → List Char → List Char
  | _, [] => []
  | 0, l => l
  | fuel + 1, c :: cs =>
    if c = '<' then
      match matchTagEnd cs with
      | some rest => stripTagsFuel fuel rest
      | none => c :: stripTagsFuel fuel cs
    else
      c :: stripTagsFuel fuel cs

/-- .replace(/<[^>]+>/g, '') on a character list. -/
def stripTagsChars (l : List Char) : List Char :=
  stripTagsFuel l.length l

/-- .replace(/<[^>]+>/g, '') on strings. -/
def stripTagsStr (s : String) : String :=
  String.mk (stripTagsChars s.data)

/-- Model of the html-entities decode call for the basic named entities:
entity references are replaced by their characters, everything else
(markup tags included) passes through unchanged. -/
def decodeEntities : List Char → List Char
  | '&' :: 'a' :: 'm' :: 'p' :: ';' :: rest => '&' :: decodeEntities rest
  | '&' :: 'l' :: 't' :: ';' :: rest => '<' :: decodeEntities rest
  | '&' :: 'g' :: 't' :: ';' :: rest => '>' :: decodeEntities rest
  | '&' :: 'q' :: 'u' :: 'o' :: 't' :: ';' :: rest => '"' :: decodeEntities rest
  | '&' :: '#' :: '3' :: '9' :: ';' :: rest => '\'' :: decodeEntities rest
  | c :: cs => c :: decodeEntities cs
  | [] => []

/-- decode on strings. -/
def decodeStr (s : String) : String :=
  String.mk (decodeEntities s.data)

/-- One persisted record: the {title, date, content} shape written to the
JSON files.  title is the identity key used by the diff engine. -/
structure FeedRecord where
  title : String
  date : String
  content : String
deriving DecidableEq, Repr

/-- One raw feed item as delivered by the XML parser: the title text, the
pubDate text, and the optional content:encoded text. -/
structure RawItem where
  title : String
  pubDate : String
  contentEncoded : Option String
deriving DecidableEq, Repr

/-- The error thrown inside the normalization map: new Date(s).toISOString()
raises a RangeError when the date string is unparseable. -/
inductive RSSError
  | malformedDate
deriving DecidableEq, Repr

deriving instance DecidableEq for Except

/-- items.map(f) where f may throw: evaluation is left to right and the
first failure aborts the whole map, mirroring a JS exception escaping
Array.prototype.map. -/
def mapExcept (f : α → Except ε β) : List α → Except ε (List β)
  | [] => Except.ok []
  | a :: as =>
    match f a with
    | Except.error e => Except.error e
    | Except.ok b =>
      match mapExcept f as with
      | Except.error e => Except.error e
      | Except.ok bs => Except.ok (b :: bs)

namespace Monitor

/-- The body of the items.map callback in monitor.js parseAndSanitizeRSS:
title is decoded then trimmed; the date string goes through the JS Date
builtin (the jsDateToISO parameter); the body takes the optional encoded
content, strips tags, collapses whitespace, trims, then decodes. -/
def normalizeItem (jsDateToISO : String → Option String) (item : RawItem) :
    Except RSSError FeedRecord :=
  match jsDateToISO item.pubDate with
  | none => Except.error RSSError.malformedDate
  | some iso =>
    Except.ok
      { title := jsTrimStr (decodeStr item.title)
        date := iso
        content := decodeStr (jsTrimStr (collapseWsStr (stripTagsStr (item.contentEncoded.getD ""))))
      }

/-- monitor.js parseAndSanitizeRSS, from the parsed item list onward. -/
def parseAndSanitizeRSS (jsDateToISO : String → Option String) (items : List RawItem) :
    Except RSSError (List FeedRecord) :=
  mapExcept (normalizeItem jsDateToISO) items

/-- Content of one JSON file on disk: either a valid serialized record
array, or bytes that JSON.parse rejects. -/
inductive FileData
  | valid (records : List FeedRecord)
  | corrupt
deriving DecidableEq, Repr

/-- The three files processRSS touches; none means the file does not exist. -/
structure FS where
  mainStore : Option FileData
  newDataFile : Option FileData
  existingDataFile : Option FileData
deriving DecidableEq, Repr

/-- monitor.js loadExistingData: missing file yields []; a read or parse
failure is caught, logged and also yields [] — the catch block swallows the
error, so the caller never sees a failure. -/
def loadExistingData (file : Option FileData) : List FeedRecord :=
  match file with
  | none => []
  | some (FileData.valid records) => records
  | some FileData.corrupt => []

/-- monitor.js findNewItems: build the set of existing titles, keep the
incoming items whose title is not in it. -/
def findNewItems (existingData newData : List FeedRecord) : List FeedRecord :=
  let existingTitles := existingData.map (fun item => item.title)
  newData.filter (fun item => !(existingTitles.contains item.title))

/-- One monitor.js processRSS cycle after a successful fetch, over the
parsed raw items.  A normalization error is caught at the cycle boundary
before any file is written.  On success: write the new-data snapshot, load
the main store, write the existing-data snapshot, diff, and rewrite the
main store only when the diff is nonempty. -/
def processRSS (jsDateToISO : String → Option String) (items : List RawItem) (fs : FS) : FS :=
  match parseAndSanitizeRSS jsDateToISO items with
  | Except.error _ => fs
  | Except.ok newData =>
    let fs1 : FS := { fs with newDataFile := some (FileData.valid newData) }
    let existingData := loadExistingData fs1.mainStore
    let fs2 : FS := { fs1 with existingDataFile := some (FileData.valid existingData) }
    let newItems := findNewItems existingData newData
    if newItems.length > 0 then
      { fs2 with mainStore := some (FileData.valid (newItems ++ existingData)) }
    else
      fs2

end Monitor

namespace OneShot

/-- The body of the items.map callback in index.js parseAndSanitizeRSS,
textually the same pipeline as the monitor variant. -/
def normalizeItem (jsDateToISO : String → Option String) (item : RawItem) :
    Except RSSError FeedRecord :=
  match jsDateToISO item.pubDate with
  | none => Except.error RSSError.malformedDate
  | some iso =>
    Except.ok
      { title := jsTrimStr (decodeStr item.title)
        date := iso
        content := decodeStr (jsTrimStr (collapseWsStr (stripTagsStr (item.contentEncoded.getD ""))))
      }

/-- index.js parseAndSanitizeRSS, from the parsed item list onward. -/
def parseAndSanitizeRSS (jsDateToISO : String → Option String) (items : List RawItem) :
    Except RSSError (List FeedRecord) :=
  mapExcept (normalizeItem jsDateToISO) items

end OneShot

/-- The body pipeline as the spec words it: absent content is the empty
string, tags stripped, whitespace runs collapsed, trimmed, then entities
decoded. -/
def normalizeBody (c : Option String) : String :=
  decodeStr (jsTrimStr (collapseWsStr (stripTagsStr (c.getD ""))))

/-- Fixture: a date oracle on which every date string parses to the fixed
instant D. -/
def dateOK : String → Option String := fun _ => some "D"

/-- Fixture: a date oracle on which no date string parses. -/
def dateBad : String → Option String := fun _ => none

/-- Fixture raw items and their normalized records under dateOK. -/
def rawA : RawItem := { title := "A", pubDate := "p", contentEncoded := none }

def rawB : RawItem := { title := "B", pubDate := "p", contentEncoded := none }

def recA : FeedRecord := { title := "A", date := "D", content := "" }

def recB : FeedRecord := { title := "B", date := "D", content := "" }

def recC : FeedRecord := { title := "C", date := "D", content := "" }

/-- Fixture: the raw item whose title is the spec's normalization example. -/
def rawTitleItem : RawItem :=
  { title := "  <b>Order</b> &amp; Memo  ", pubDate := "p", contentEncoded := none }

/-- Fixture: no file exists yet. -/
def fsEmpty : Monitor.FS :=
  { mainStore := none, newDataFile := none, existingDataFile := none }

/-- Fixture: the main store holds the single record B. -/
def fsWithB : Monitor.FS :=
  { mainStore := some (Monitor.FileData.valid [recB]), newDataFile := none,
    existingDataFile := none }

theorem mem_findNewItems {ex nd : List FeedRecord} {r : FeedRecord} :
    r ∈ Monitor.findNewItems ex nd ↔ r ∈ nd ∧ r.title ∉ ex.map FeedRecord.title := by
  simp [Monitor.findNewItems, List.mem_filter, FeedRecord.title]

theorem findNewItems_eq_nil_iff {ex nd : List FeedRecord} :
    Monitor.findNewItems ex nd = [] ↔ ∀ r ∈ nd, r.title ∈ ex.map FeedRecord.title := by
  simp [Monitor.findNewItems, List.filter_eq_nil_iff, FeedRecord.title]

theorem findNewItems_nil_existing (nd : List FeedRecord) :
    Monitor.findNewItems [] nd = nd := by
  simp [Monitor.findNewItems]

theorem findNewItems_append_self (ex nd : List FeedRecord) :
    Monitor.findNewItems (Monitor.findNewItems ex nd ++ ex) nd = [] := by
  rw [findNewItems_eq_nil_iff]
  intro r hr
  rw [List.map_append, List.mem_append]
  by_cases h : r.title ∈ ex.map FeedRecord.title
  · exact Or.inr h
  · exact Or.inl (List.mem_map.mpr ⟨r, mem_findNewItems.mpr ⟨hr, h⟩, rfl⟩)

theorem findNewItems_perm {ex ex' : List FeedRecord} (nd : List FeedRecord)
    (h : ex.Perm ex') :
    Monitor.findNewItems ex nd = Monitor.findNewItems ex' nd := by
  unfold Monitor.findNewItems
  apply List.filter_congr
  intro r _
  have hmem : r.title ∈ ex.map (fun item => item.title) ↔
      r.title ∈ ex'.map (fun item => item.title) :=
    (h.map (fun item => item.title)).mem_iff
  simp [hmem]

theorem parseAndSanitizeRSS_error_of_bad_date {jsD : String → Option String}
    {items : List RawItem} {it : RawItem} (hmem : it ∈ items)
    (hbad : jsD it.pubDate = none) :
    Monitor.parseAndSanitizeRSS jsD items = Except.error RSSError.malformedDate := by
  induction items with
  | nil => cases hmem
  | cons a as ih =>
    show mapExcept (Monitor.normalizeItem jsD) (a :: as) = Except.error RSSError.malformedDate
    rcases List.mem_cons.mp hmem with h | h
    · subst h
      unfold mapExcept Monitor.normalizeItem
      rw [hbad]
    · cases ha : Monitor.normalizeItem jsD a with
      | error e =>
        cases e
        unfold mapExcept
        rw [ha]
      | ok b =>
        have hrec : mapExcept (Monitor.normalizeItem jsD) as
            = Except.error RSSError.malformedDate := ih h
        unfold mapExcept
        rw [ha, hrec]

theorem processRSS_of_error {jsD : String → Option String} {items : List RawItem}
    {e : RSSError} (fs : Monitor.FS)
    (herr : Monitor.parseAndSanitizeRSS jsD items = Except.error e) :
    Monitor.processRSS jsD items fs = fs := by
  unfold Monitor.processRSS
  rw [herr]

theorem processRSS_of_ok {jsD : String → Option String} {items : List RawItem}
    {newData : List FeedRecord} (fs : Monitor.FS)
    (hok : Monitor.parseAndSanitizeRSS jsD items = Except.ok newData) :
    Monitor.processRSS jsD items fs =
      (if (Monitor.findNewItems (Monitor.loadExistingData fs.mainStore) newData).length > 0 then
        { mainStore := some (Monitor.FileData.valid
            (Monitor.findNewItems (Monitor.loadExistingData fs.mainStore) newData
              ++ Monitor.loadExistingData fs.mainStore))
          newDataFile := some (Monitor.FileData.valid newData)
          existingDataFile := some (Monitor.FileData.valid (Monitor.loadExistingData fs.mainStore)) }
      else
        { mainStore := fs.mainStore
          newDataFile := some (Monitor.FileData.valid newData)
          existingDataFile := some (Monitor.FileData.valid (Monitor.loadExistingData fs.mainStore)) }) := by
  unfold Monitor.processRSS
  rw [hok]

/-- C1: the Diff Engine (findNewItems) returns exactly those incoming
records whose title is not among the title values of existing — literally
the filter of incoming by that membership test, hence a sublist of incoming
preserving its relative order — and permuting the existing snapshot does
not change the result. -/
theorem C1_findNewItems_exact_diff (ex ex' inc : List FeedRecord)
    (hperm : ex.Perm ex') :
    Monitor.findNewItems ex inc
        = inc.filter (fun r => decide (r.title ∉ ex.map FeedRecord.title))
      ∧ (Monitor.findNewItems ex inc).Sublist inc
      ∧ Monitor.findNewItems ex' inc = Monitor.findNewItems ex inc := by
  refine ⟨?_, ?_, (findNewItems_perm inc hperm).symm⟩
  · unfold Monitor.findNewItems
    apply List.filter_congr
    intro r _
    by_cases hmem : r.title ∈ ex.map FeedRecord.title
    · have h1 : (ex.map (fun item => item.title)).contains r.title = true := by
        simpa using hmem
      rw [h1]
      simp [hmem]
    · have h1 : (ex.map (fun item => item.title)).contains r.title = false := by
        simpa using hmem
      rw [h1]
      simp [hmem]
  · exact List.filter_sublist inc

theorem C1_witness :
    ([recB, recC].Perm [recC, recB])
      ∧ (Monitor.findNewItems [recB, recC] [recA, recB]
            = [recA, recB].filter (fun r => decide (r.title ∉ [recB, recC].map FeedRecord.title))
          ∧ (Monitor.findNewItems [recB, recC] [recA, recB]).Sublist [recA, recB]
          ∧ Monitor.findNewItems [recC, recB] [recA, recB]
              = Monitor.findNewItems [recB, recC] [recA, recB]) :=
  ⟨List.Perm.swap recC recB [],
   C1_findNewItems_exact_diff [recB, recC] [recC, recB] [recA, recB]
     (List.Perm.swap recC recB [])⟩

/-- C2: the code, not the claim — a present-but-corrupt store file is
silently recovered: loadExistingData catches the parse failure and returns
the empty snapshot, indistinguishable from a missing file, and no
CorruptStateError reaches the caller. -/
theorem C2_load_corrupt_silently_empty :
    Monitor.loadExistingData (some Monitor.FileData.corrupt) = []
      ∧ Monitor.loadExistingData (some Monitor.FileData.corrupt)
          = Monitor.loadExistingData none :=
  ⟨rfl, rfl⟩

/-- C3 counterexample: with an empty store and an incoming batch holding
two records with the same title, the cycle merges and persists both, so the
post-merge store has two records sharing a title, both contributed by this
cycle's incoming batch. -/
theorem C3_counterexample :
    (Monitor.processRSS dateOK [rawA, rawA] fsEmpty).mainStore
        = some (Monitor.FileData.valid [recA, recA])
      ∧ ¬ List.Pairwise (fun a b : FeedRecord => a.title ≠ b.title) [recA, recA] :=
  ⟨by decide, by decide⟩

/-- C3 amended: when the incoming batch's titles are pairwise distinct, no
two records of the post-merge store (newItems ++ existing) such that at
least one of the two was contributed by this cycle's batch share a title. -/
theorem C3_amended_no_batch_duplicates (ex nd : List FeedRecord)
    (hnodup : (nd.map FeedRecord.title).Nodup) :
    List.Pairwise
      (fun a b => a ∈ Monitor.findNewItems ex nd ∨ b ∈ Monitor.findNewItems ex nd →
        a.title ≠ b.title)
      (Monitor.findNewItems ex nd ++ ex) := by
  rw [List.pairwise_append]
  have hnd : nd.Pairwise (fun a b => a.title ≠ b.title) := List.pairwise_map.mp hnodup
  refine ⟨?_, ?_, ?_⟩
  · have h2 : (Monitor.findNewItems ex nd).Pairwise (fun a b => a.title ≠ b.title) :=
      List.Pairwise.sublist (List.filter_sublist nd) hnd
    refine List.Pairwise.imp ?_ h2
    intro a b hab _
    exact hab
  · apply List.pairwise_of_forall_mem_list
    intro a ha b hb hcase
    exfalso
    rcases hcase with hmem | hmem
    · exact (mem_findNewItems.mp hmem).2 (List.mem_map.mpr ⟨a, ha, rfl⟩)
    · exact (mem_findNewItems.mp hmem).2 (List.mem_map.mpr ⟨b, hb, rfl⟩)
  · intro a ha b hb _
    intro heq
    exact (mem_findNewItems.mp ha).2 (heq ▸ List.mem_map.mpr ⟨b, hb, rfl⟩)

theorem C3_witness :
    (([recA, recB].map FeedRecord.title).Nodup)
      ∧ List.Pairwise
          (fun a b => a ∈ Monitor.findNewItems [recB] [recA, recB]
              ∨ b ∈ Monitor.findNewItems [recB] [recA, recB] →
            a.title ≠ b.title)
          (Monitor.findNewItems [recB] [recA, recB] ++ [recB]) :=
  ⟨by decide, C3_amended_no_batch_duplicates [recB] [recA, recB] (by decide)⟩

/-- C4: on a cycle whose normalization succeeds, if the diff is nonempty
the main store is rewritten as newItems ++ existing (new first), and if the
diff is empty the main store field is left exactly as it was. -/
theorem C4_merge_and_frame (jsD : String → Option String) (items : List RawItem)
    (fs : Monitor.FS) (newData : List FeedRecord)
    (hok : Monitor.parseAndSanitizeRSS jsD items = Except.ok newData) :
    (Monitor.findNewItems (Monitor.loadExistingData fs.mainStore) newData ≠ [] →
        (Monitor.processRSS jsD items fs).mainStore
          = some (Monitor.FileData.valid
              (Monitor.findNewItems (Monitor.loadExistingData fs.mainStore) newData
                ++ Monitor.loadExistingData fs.mainStore)))
      ∧ (Monitor.findNewItems (Monitor.loadExistingData fs.mainStore) newData = [] →
          (Monitor.processRSS jsD items fs).mainStore = fs.mainStore) := by
  rw [processRSS_of_ok fs hok]
  constructor
  · intro hne
    rw [if_pos (List.length_pos.mpr hne)]
  · intro hnil
    rw [if_neg (by simp [hnil])]

theorem C4_witness :
    Monitor.parseAndSanitizeRSS dateOK [rawA, rawB] = Except.ok [recA, recB]
      ∧ ((Monitor.findNewItems (Monitor.loadExistingData fsWithB.mainStore) [recA, recB] ≠ [] →
            (Monitor.processRSS dateOK [rawA, rawB] fsWithB).mainStore
              = some (Monitor.FileData.valid
                  (Monitor.findNewItems (Monitor.loadExistingData fsWithB.mainStore) [recA, recB]
                    ++ Monitor.loadExistingData fsWithB.mainStore)))
          ∧ (Monitor.findNewItems (Monitor.loadExistingData fsWithB.mainStore) [recA, recB] = [] →
              (Monitor.processRSS dateOK [rawA, rawB] fsWithB).mainStore = fsWithB.mainStore)) :=
  ⟨by decide, C4_merge_and_frame dateOK [rawA, rawB] fsWithB [recA, recB] (by decide)⟩

/-- C5: running the cycle twice on the same fetched payload, the second
diff against the store left by the first cycle is empty, and the second
cycle leaves the main store exactly as the first cycle left it. -/
theorem C5_dedup_idempotent (jsD : String → Option String) (items : List RawItem)
    (fs : Monitor.FS) (newData : List FeedRecord)
    (hok : Monitor.parseAndSanitizeRSS jsD items = Except.ok newData) :
    Monitor.findNewItems
        (Monitor.loadExistingData (Monitor.processRSS jsD items fs).mainStore) newData = []
      ∧ (Monitor.processRSS jsD items (Monitor.processRSS jsD items fs)).mainStore
          = (Monitor.processRSS jsD items fs).mainStore := by
  have hdiff : Monitor.findNewItems
      (Monitor.loadExistingData (Monitor.processRSS jsD items fs).mainStore) newData = [] := by
    rw [processRSS_of_ok fs hok]
    by_cases hl : (Monitor.findNewItems (Monitor.loadExistingData fs.mainStore) newData).length > 0
    · rw [if_pos hl]
      exact findNewItems_append_self _ _
    · rw [if_neg hl]
      show Monitor.findNewItems (Monitor.loadExistingData fs.mainStore) newData = []
      have := Nat.eq_zero_of_not_pos hl
      exact List.length_eq_zero.mp this
  refine ⟨hdiff, ?_⟩
  rw [processRSS_of_ok (Monitor.processRSS jsD items fs) hok]
  rw [if_neg (by simp [hdiff])]

theorem C5_witness :
    Monitor.parseAndSanitizeRSS dateOK [rawA, rawB] = Except.ok [recA, recB]
      ∧ (Monitor.findNewItems
            (Monitor.loadExistingData
              (Monitor.processRSS dateOK [rawA, rawB] fsWithB).mainStore) [recA, recB] = []
          ∧ (Monitor.processRSS dateOK [rawA, rawB]
                (Monitor.processRSS dateOK [rawA, rawB] fsWithB)).mainStore
              = (Monitor.processRSS dateOK [rawA, rawB] fsWithB).mainStore) :=
  ⟨by decide, C5_dedup_idempotent dateOK [rawA, rawB] fsWithB [recA, recB] (by decide)⟩

/-- C6 counterexample: on the spec's raw title, the normalizer does not
produce the title with markup stripped — the title pipeline is only decode
then trim, so the b tags survive. -/
theorem C6_counterexample :
    jsTrimStr (decodeStr "  <b>Order</b> &amp; Memo  ") ≠ "Order & Memo"
      ∧ Monitor.normalizeItem dateOK rawTitleItem
          = Except.ok
              { title := jsTrimStr (decodeStr "  <b>Order</b> &amp; Memo  ")
                date := "D"
                content := "" } :=
  ⟨by decide, by decide⟩

/-- C6 amended: on the spec's raw title, the normalizer produces the title
with entities decoded and surrounding whitespace trimmed but markup tags
kept: tag stripping is applied only to the body, never to the title. -/
theorem C6_amended_title_keeps_markup :
    Monitor.normalizeItem dateOK rawTitleItem
      = Except.ok { title := "<b>Order</b> & Memo", date := "D", content := "" } := by
  decide

/-- C7: for every raw feed item (under a date oracle that accepts the
item's date), the normalized body equals the spec pipeline — absent encoded
content treated as empty, tags stripped, whitespace runs collapsed to one
space, trimmed, then entities decoded — and the pipeline sends the absent
body to the empty string and the Hello/World example to Hello World. -/
theorem C7_body_normalization :
    (∀ (item : RawItem) (iso : String),
        Monitor.normalizeItem (fun _ => some iso) item
          = Except.ok
              { title := jsTrimStr (decodeStr item.title)
                date := iso
                content := normalizeBody item.contentEncoded })
      ∧ normalizeBody none = ""
      ∧ normalizeBody (some "Hello\n\n   World") = "Hello World" := by
  refine ⟨fun item iso => rfl, by decide, by decide⟩

/-- C8: if any single item's date string is rejected by the date parser,
normalization propagates the malformed-date error with no fallback and the
whole cycle aborts, leaving every file — the main store included — exactly
as it was. -/
theorem C8_bad_date_aborts (jsD : String → Option String) (items : List RawItem)
    (it : RawItem) (fs : Monitor.FS) (hmem : it ∈ items)
    (hbad : jsD it.pubDate = none) :
    Monitor.parseAndSanitizeRSS jsD items = Except.error RSSError.malformedDate
      ∧ Monitor.processRSS jsD items fs = fs := by
  have herr := parseAndSanitizeRSS_error_of_bad_date hmem hbad
  exact ⟨herr, processRSS_of_error fs herr⟩

theorem C8_witness :
    rawA ∈ [rawB, rawA] ∧ dateBad rawA.pubDate = none
      ∧ (Monitor.parseAndSanitizeRSS dateBad [rawB, rawA] = Except.error RSSError.malformedDate
          ∧ Monitor.processRSS dateBad [rawB, rawA] fsWithB = fsWithB) :=
  ⟨by decide, rfl,
   C8_bad_date_aborts dateBad [rawB, rawA] rawA fsWithB (by decide) rfl⟩

/-- C9: loading the store from a missing path yields the empty snapshot
with no error, and a first cycle over a missing store whose batch is
nonempty writes exactly the fetched, normalized batch as the main store. -/
theorem C9_missing_store_first_cycle (jsD : String → Option String)
    (items : List RawItem) (fs : Monitor.FS) (newData : List FeedRecord)
    (hok : Monitor.parseAndSanitizeRSS jsD items = Except.ok newData)
    (hmain : fs.mainStore = none) (hne : newData ≠ []) :
    Monitor.loadExistingData fs.mainStore = []
      ∧ (Monitor.processRSS jsD items fs).mainStore
          = some (Monitor.FileData.valid newData) := by
  have hload : Monitor.loadExistingData fs.mainStore = [] := by
    rw [hmain]
    rfl
  refine ⟨hload, ?_⟩
  rw [processRSS_of_ok fs hok, hload, findNewItems_nil_existing]
  rw [if_pos (List.length_pos.mpr hne)]
  simp

theorem C9_witness :
    Monitor.parseAndSanitizeRSS dateOK [rawA] = Except.ok [recA]
      ∧ fsEmpty.mainStore = none ∧ [recA] ≠ []
      ∧ (Monitor.loadExistingData fsEmpty.mainStore = []
          ∧ (Monitor.processRSS dateOK [rawA] fsEmpty).mainStore
              = some (Monitor.FileData.valid [recA])) :=
  ⟨by decide, rfl, by decide,
   C9_missing_store_first_cycle dateOK [rawA] fsEmpty [recA] (by decide) rfl (by decide)⟩

/-- C10: the normalization stages of the two entry points agree
extensionally: on every parsed item list (and every date oracle) the
monitor.js and index.js parseAndSanitizeRSS produce the same records. -/
theorem C10_entry_points_agree (jsD : String → Option String) (items : List RawItem) :
    Monitor.parseAndSanitizeRSS jsD items = OneShot.parseAndSanitizeRSS jsD items := rfl
